import Mathlib

/-!
Verification development for the tap-instagram replication engine.

The definitions below are shallow embeddings of the Python code in
`tap_instagram/common.py` and `tap_instagram/streams.py`:

* `should_retry_api_error` embeds the retry predicate of `common.py`.
* `build_range` embeds `UserInsights.build_range` of `streams.py`,
  with instants modelled as seconds since the epoch (local timezone
  assumed UTC) and `pendulum.today(-1)` modelled per pendulum 2.1.2,
  where an integer argument denotes a fixed UTC offset in hours.
* The user-insights reconciliation, media-insights and story-insights
  loops are modelled with Python dicts as association lists with
  insert-or-update semantics (`upsert`).
* `remove_params_from_url` and `clean_url` embed the URL cleanup of
  `common.py` / `streams.py`, with `urllib.parse.urlparse` /
  `urlunparse` modelled on character lists for URLs of the common
  `scheme://netloc/path?query#fragment` shape.
-/

set_option autoImplicit false

deriving instance DecidableEq for Except

namespace TapInstagram

/-! ## Error classifier (`common.py`, `should_retry_api_error`) -/

/-- The fields of a `facebook_business.exceptions.FacebookRequestError`
as read by `should_retry_api_error`.  The vendor code/subcode may be
absent (`None` in Python), hence `Option Int`. -/
structure FBError where
  http_status : Int
  api_error_type : String
  api_error_code : Option Int
  api_error_subcode : Option Int
  api_transient_error : Bool
  api_error_message : String
deriving DecidableEq, Repr

/-- Embedding of `should_retry_api_error` from `common.py`: the nested
`if` chain, first match wins.  `429` is `status_codes.TOO_MANY_REQUESTS`
and `400` is `status_codes.BAD_REQUEST`. -/
def should_retry_api_error (exc : FBError) : Bool :=
  if exc.api_error_type = "OAuthException" ∧
      exc.api_error_code ∈ [some 1, some 2, some 4, some 17, some 341, some 368] then
    true
  else if exc.api_error_code ∈ [some 4, some 17, some 32, some 613] then
    true
  else if exc.http_status = 429 then
    true
  else if exc.api_error_code = some 10 ∧
      exc.api_error_message = "(#10) Not enough viewers for the media to show insights" then
    false
  else if exc.http_status = 400 ∧ exc.api_error_code = some 100 ∧
      exc.api_error_subcode = some 33 then
    true
  else if exc.api_transient_error then
    true
  else if exc.api_error_subcode = some 2108006 then
    false
  else
    false

/-- The three-way verdict of the spec's error classifier. -/
inductive Classification where
  | Retryable
  | ExpectedEmpty
  | Fatal
deriving DecidableEq, Repr

/-- `containsSub needle hay` is true when `needle` occurs as a
contiguous substring of `hay` (Python's `needle in hay`). -/
def containsSub (needle : List Char) : List Char → Bool
  | [] => needle.isEmpty
  | c :: rest => needle.isPrefixOf (c :: rest) || containsSub needle rest

/-- The spec's classifier, rules 1-8 of spec section 4.2 evaluated in
order, first match wins.  Rule 4 is taken at the spec's word: the
message *contains* the substring "Not enough viewers". -/
def classifySpec (exc : FBError) : Classification :=
  if exc.api_error_type = "OAuthException" ∧
      exc.api_error_code ∈ [some 1, some 2, some 4, some 17, some 341, some 368] then
    .Retryable
  else if exc.api_error_code ∈ [some 4, some 17, some 32, some 613] then
    .Retryable
  else if exc.http_status = 429 then
    .Retryable
  else if exc.api_error_code = some 10 ∧
      containsSub "Not enough viewers".data exc.api_error_message.data = true then
    .ExpectedEmpty
  else if exc.http_status = 400 ∧ exc.api_error_code = some 100 ∧
      exc.api_error_subcode = some 33 then
    .Retryable
  else if exc.api_transient_error then
    .Retryable
  else if exc.api_error_subcode = some 2108006 then
    .ExpectedEmpty
  else
    .Fatal

/-- The classifier with rule 4 corrected to what the code tests: the
message is *exactly* "(#10) Not enough viewers for the media to show
insights" (string equality, not substring containment). -/
def classifyByCode (exc : FBError) : Classification :=
  if exc.api_error_type = "OAuthException" ∧
      exc.api_error_code ∈ [some 1, some 2, some 4, some 17, some 341, some 368] then
    .Retryable
  else if exc.api_error_code ∈ [some 4, some 17, some 32, some 613] then
    .Retryable
  else if exc.http_status = 429 then
    .Retryable
  else if exc.api_error_code = some 10 ∧
      exc.api_error_message = "(#10) Not enough viewers for the media to show insights" then
    .ExpectedEmpty
  else if exc.http_status = 400 ∧ exc.api_error_code = some 100 ∧
      exc.api_error_subcode = some 33 then
    .Retryable
  else if exc.api_transient_error then
    .Retryable
  else if exc.api_error_subcode = some 2108006 then
    .ExpectedEmpty
  else
    .Fatal

/-- An error whose message contains "Not enough viewers" without being
the exact string the code compares against, and whose transient flag is
set.  The code retries it; the spec's rule 4 classifies it
ExpectedEmpty. -/
def notEnoughViewersTransientError : FBError :=
  { http_status := 200
    api_error_type := "FacebookApiException"
    api_error_code := some 10
    api_error_subcode := none
    api_transient_error := true
    api_error_message := "Not enough viewers" }

/-! ## Incremental date window (`streams.py`, `UserInsights.build_range`)

Instants are seconds since the epoch (`Int`); the machine-local
timezone is taken to be UTC.  A moment in time is given as
`(day, sec)`: the current UTC day number and the second of that day.
-/

/-- `UserInsights.buffer_days` from `streams.py`. -/
def buffer_days : Int := 30

/-- `pendulum.today(-1)` under pendulum 2.1.2: the integer `-1` is
interpreted as the fixed timezone UTC-01:00, so this is the start of
the current day *in that timezone*, as a UTC instant.  (It is not
"yesterday".) -/
def pendulumTodayUtcMinus1 (day sec : Int) : Int :=
  ((day * 86400 + sec - 3600) / 86400) * 86400 + 3600

/-- The calendar date (day number) that `pendulum.today(-1)` prints,
e.g. via `to_datetime_string()`: the date of the current moment in the
fixed timezone UTC-01:00. -/
def utcMinus1DateOf (day sec : Int) : Int :=
  (day * 86400 + sec - 3600) / 86400

/-- Embedding of `UserInsights.build_range`.  `bookmark` is the parsed
stored bookmark instant (or `none` when the state holds no bookmark);
`day`/`sec` locate "now".  Returns the `(since, until)` instants. -/
def build_range (bookmark : Option Int) (day sec : Int) : Int × Int :=
  let min_start_date : Int := (day - buffer_days) * 86400
  let start_date : Int :=
    match bookmark with
    | some b => if b < min_start_date then min_start_date else b
    | none => min_start_date
  let end_date : Int := pendulumTodayUtcMinus1 day sec
  (min start_date end_date, end_date)

/-! ## Python dicts as association lists -/

/-- First-match lookup in an association list (Python `d[k]` /
`d.get(k)`). -/
def lookupA {β : Type} (k : String) : List (String × β) → Option β
  | [] => none
  | (k', v) :: rest => if k' = k then some v else lookupA k rest

/-- Python dict assignment `d[k] = v`: replace the value in place when
the key is present, append the pair otherwise. -/
def upsert {β : Type} (k : String) (v : β) : List (String × β) → List (String × β)
  | [] => [(k, v)]
  | (k', v') :: rest => if k' = k then (k', v) :: rest else (k', v') :: upsert k v rest

/-- A scalar value stored in a record field. -/
inductive Val where
  | str : String → Val
  | int : Int → Val
deriving DecidableEq, Repr

/-- A record: a Python dict from field names to values. -/
abbrev Rec := List (String × Val)

/-- Python's lexicographic string comparison (`a <= b`), by code
point. -/
def lexLe : List Char → List Char → Bool
  | [], _ => true
  | _ :: _, [] => false
  | a :: as, b :: bs => if a = b then lexLe as bs else decide (a < b)

/-- The order in which Python's `sorted` arranges the `end_time`
strings. -/
def dateLe (a b : String) : Prop := lexLe a.data b.data = true

instance : DecidableRel dateLe := fun a b =>
  inferInstanceAs (Decidable (lexLe a.data b.data = true))

instance : IsTotal String dateLe where
  total a b := by
    unfold dateLe
    generalize a.data = x
    generalize b.data = y
    induction x generalizing y with
    | nil => left; rfl
    | cons c cs ih =>
      cases y with
      | nil => right; rfl
      | cons d ds =>
        by_cases hcd : c = d
        · subst hcd
          rcases ih ds with h | h
          · left; simpa [lexLe] using h
          · right; simpa [lexLe] using h
        · rcases lt_or_gt_of_ne hcd with h | h
          · left; simp [lexLe, hcd, h]
          · right; simp [lexLe, Ne.symm hcd, h, not_lt_of_gt h]

instance : IsTrans String dateLe where
  trans a b c hab hbc := by
    unfold dateLe at *
    revert hab hbc
    generalize a.data = x
    generalize b.data = y
    generalize c.data = z
    intro hab hbc
    induction x generalizing y z with
    | nil => rfl
    | cons p ps ih =>
      cases y with
      | nil => simp [lexLe] at hab
      | cons q qs =>
        cases z with
        | nil => simp [lexLe] at hbc
        | cons r rs =>
          by_cases hpq : p = q
          · subst hpq
            by_cases hqr : p = r
            · subst hqr
              simp only [lexLe, if_pos rfl] at hab hbc ⊢
              exact ih qs rs hab hbc
            · simp only [lexLe, if_pos rfl] at hab
              simp only [lexLe, if_neg hqr] at hbc ⊢
              exact hbc
          · by_cases hqr : q = r
            · subst hqr
              simp only [lexLe, if_neg hpq] at hab ⊢
              exact hab
            · simp only [lexLe, if_neg hpq] at hab
              simp only [lexLe, if_neg hqr] at hbc
              have hpltq : p < q := by simpa using hab
              have hqltr : q < r := by simpa using hbc
              have hpr : p < r := lt_trans hpltq hqltr
              simp [lexLe, ne_of_lt hpr, hpr]

/-! ## `UserInsights.__iter__` (multi-period reconciliation) -/

/-- Iteration order of `UserInsights.period_to_metrics` (a Python dict
preserves insertion order). -/
def periodOrder : List String := ["day", "week", "days_28", "lifetime"]

/-- The metrics requested per period in `UserInsights.period_to_metrics`. -/
def period_to_metrics (period : String) : List String :=
  if period = "day" then
    ["email_contacts", "follower_count", "get_directions_clicks", "impressions",
      "phone_call_clicks", "profile_views", "reach", "text_message_clicks", "website_clicks"]
  else if period = "week" then ["impressions", "reach"]
  else if period = "days_28" then ["impressions", "reach"]
  else if period = "lifetime" then ["online_followers"]
  else []

/-- The key under which a metric value is stored:
`if period in ["week", "days_28"]: key += "_{}".format(period)`. -/
def metricKey (period name : String) : String :=
  if period = "week" ∨ period = "days_28" then name ++ "_" ++ period else name

/-- One metric of an insights response: its name and its list of
`(end_time, value)` entries. -/
abbrev MetricResp := String × List (String × Val)

/-- One step of the accumulation in `UserInsights.__iter__`:
`if end_time not in metrics_by_day: metrics_by_day[end_time] = {}`
followed by `metrics_by_day[end_time][key] = value["value"]`. -/
def mdInsert (e key : String) (v : Val) (md : List (String × Rec)) : List (String × Rec) :=
  upsert e (upsert key v ((lookupA e md).getD [])) md

/-- The triple loop of `UserInsights.__iter__` that fills
`metrics_by_day` for one account: over the periods, over the metrics of
each period's insights response, over each metric's values. -/
def collectMetrics (resp : String → List MetricResp) : List (String × Rec) :=
  periodOrder.foldl
    (fun md period =>
      (resp period).foldl
        (fun md m =>
          m.2.foldl (fun md ev => mdInsert ev.1 (metricKey period m.1) ev.2 md) md)
        md)
    []

/-- `sorted(metrics_by_day)`: the dict's keys in ascending order. -/
def sortedDays (md : List (String × Rec)) : List String :=
  List.insertionSort dateLe (md.map Prod.fst)

/-- The record emitted for one `end_time`:
`{**metrics_by_day[end_time], "page_id": ..., "business_account_id": ...}`
followed by `record["date"] = end_time`. -/
def mkDayRecord (pid baid : Val) (e : String) (md : List (String × Rec)) : Rec :=
  upsert "date" (Val.str e)
    (upsert "business_account_id" baid
      (upsert "page_id" pid ((lookupA e md).getD [])))

/-- All records `UserInsights.__iter__` emits for one account, in
emission order. -/
def accountRecords (pid baid : Val) (resp : String → List MetricResp) : List Rec :=
  (sortedDays (collectMetrics resp)).map
    (fun e => mkDayRecord pid baid e (collectMetrics resp))

/-- The `date` field of a record (the bookmark key of `user_insights`). -/
def dateStrOf (r : Rec) : String :=
  match lookupA "date" r with
  | some (Val.str s) => s
  | _ => ""

/-- A message yielded by a stream: `{"record": ...}` or `{"state": ...}`,
the latter represented by the `date` bookmark value it carries. -/
inductive Msg where
  | record : Rec → Msg
  | state : String → Msg
deriving DecidableEq, Repr

def isStateMsg : Msg → Bool
  | .state _ => true
  | .record _ => false

/-- One upstream account as `UserInsights.__iter__` sees it: the page
id, the instagram business account id, and the insights response the
API returns for each period's query. -/
structure IGAccount where
  page_id : Val
  business_account_id : Val
  resp : String → List MetricResp

/-- `UserInsights.__iter__`: each account's records in order, then the
single state message carrying `base_params["until"]` as the new `date`
bookmark. -/
def userInsightsIter (accounts : List IGAccount) (untilStr : String) : List Msg :=
  ((accounts.map
      (fun a => (accountRecords a.page_id a.business_account_id a.resp).map Msg.record)).flatten)
    ++ [Msg.state untilStr]

/-- The flat sequence of `(end_time, derived key, value)` triples the
accumulation loop processes, in processing order. -/
def respEvents (resp : String → List MetricResp) : List (String × String × Val) :=
  ((periodOrder.map (fun period =>
      ((resp period).map (fun m =>
        m.2.map (fun ev => (ev.1, metricKey period m.1, ev.2)))).flatten)).flatten)

/-- Replaying the accumulation as a single fold over `respEvents`. -/
def eventsFold (events : List (String × String × Val)) (md : List (String × Rec)) :
    List (String × Rec) :=
  events.foldl (fun md ev => mdInsert ev.1 ev.2.1 ev.2.2 md) md

/-- The value stored under `(end_time, key)` in `metrics_by_day`. -/
def innerLookup (e k : String) (md : List (String × Rec)) : Option Val :=
  lookupA k ((lookupA e md).getD [])

/-- The last value the accumulation loop processes for
`(end_time, key)`. -/
def lastVal (e k : String) (events : List (String × String × Val)) : Option Val :=
  events.foldl (fun acc ev => if ev.1 = e ∧ ev.2.1 = k then some ev.2.2 else acc) none

/-- The `date` fields of the record messages of a run, in order. -/
def recordDates (msgs : List Msg) : List String :=
  msgs.filterMap (fun m => match m with | .record r => some (dateStrOf r) | .state _ => none)

/-- A concrete two-period insights response: the day and week queries
both answer with a `reach` value for the same end_time. -/
def c4resp : String → List MetricResp := fun period =>
  if period = "day" then [("reach", [("2023-01-01T07:00:00+0000", Val.int 5)])]
  else if period = "week" then [("reach", [("2023-01-01T07:00:00+0000", Val.int 9)])]
  else []

/-- An account whose only insight datum is for 2023-01-02. -/
def c5AccountLate : IGAccount :=
  { page_id := Val.str "p1"
    business_account_id := Val.str "b1"
    resp := fun period =>
      if period = "day" then [("reach", [("2023-01-02T07:00:00+0000", Val.int 4)])] else [] }

/-- An account whose only insight datum is for 2023-01-01, listed after
`c5AccountLate`. -/
def c5AccountEarly : IGAccount :=
  { page_id := Val.str "p2"
    business_account_id := Val.str "b2"
    resp := fun period =>
      if period = "day" then [("reach", [("2023-01-01T07:00:00+0000", Val.int 7)])] else [] }

/-! ## Media and story insights (`MediaInsights`, `StoryInsights`) -/

/-- The outcome of one upstream `get_insights` call: a successful
response, or a `FacebookRequestError` raised by the client. -/
inductive FetchResult where
  | ok : List MetricResp → FetchResult
  | fail : FBError → FetchResult

/-- An error escaping a stream's iteration: a re-raised
`FacebookRequestError`, or the `IndexError` that `values[0]` raises on
an empty value list. -/
inductive RunError where
  | fb : FBError → RunError
  | indexErr : RunError
deriving DecidableEq, Repr

/-- One media object as `MediaInsights.__iter__` sees it: its id, its
`media_type` field, and the insights response the API returns for a
given requested metric list. -/
structure MediaItem where
  id : Val
  media_type : String
  fetch : List String → FetchResult

/-- `MediaInsights.metrics`. -/
def mediaInsightsMetrics : List String := ["engagement", "impressions", "reach", "saved"]

/-- `MediaInsights.carousel_album_metrics`. -/
def carousel_album_metrics : List String :=
  ["carousel_album_engagement", "carousel_album_impressions", "carousel_album_reach",
    "carousel_album_saved", "carousel_album_video_views"]

/-- The metric list `MediaInsights.get_insights` requests for a given
`media_type`. -/
def metricsFor (media_type : String) : List String :=
  if media_type = "VIDEO" then mediaInsightsMetrics ++ ["video_views"]
  else if media_type = "CAROUSEL_ALBUM" then carousel_album_metrics
  else mediaInsightsMetrics

/-- `{record.get("name"): record.get("values")[0]["value"] for record in
insights}`: `none` models the IndexError Python raises when some
metric's value list is empty. -/
def insightsDict (ins : List MetricResp) : Option Rec :=
  match ins.mapM (fun m => m.2.head?.map (fun ev => (m.1, ev.2))) with
  | some pairs => some (pairs.foldl (fun d p => upsert p.1 p.2 d) [])
  | none => none

/-- The result of `MediaInsights.get_insights`: an insights dict,
`stop` (Python `None`, meaning break the media loop), or a re-raised
error. -/
inductive GetInsightsResult where
  | insights : Rec → GetInsightsResult
  | stop : GetInsightsResult
  | raised : RunError → GetInsightsResult

/-- `MediaInsights.get_insights`: queries the metrics for the item's
media_type; on a `FacebookRequestError` with subcode 2108006 (media
posted before the account's business conversion) returns `stop`, any
other error is re-raised. -/
def media_get_insights (m : MediaItem) : GetInsightsResult :=
  match m.fetch (metricsFor m.media_type) with
  | .ok ins =>
    match insightsDict ins with
    | some d => .insights d
    | none => .raised .indexErr
  | .fail err =>
    if err.api_error_subcode = some 2108006 then .stop
    else .raised (.fb err)

/-- The media loop of `MediaInsights.__iter__` for one account: the
emitted records and the number of insight queries issued; a `stop` from
`get_insights` breaks the loop. -/
def mediaInsightsRun (pid baid : Val) : List MediaItem → Except RunError (List Rec × Nat)
  | [] => .ok ([], 0)
  | m :: rest =>
    match media_get_insights m with
    | .stop => .ok ([], 1)
    | .raised e => .error e
    | .insights ins =>
      match mediaInsightsRun pid baid rest with
      | .ok (rs, n) =>
        .ok ((upsert "business_account_id" baid
          (upsert "page_id" pid (upsert "id" m.id ins))) :: rs, n + 1)
      | .error e => .error e

/-- One story object as `StoryInsights.__iter__` sees it. -/
structure StoryItem where
  id : Val
  fetch : List String → FetchResult

/-- `StoryInsights.metrics`. -/
def storyInsightsMetrics : List String :=
  ["exits", "impressions", "reach", "replies", "taps_forward", "taps_back"]

/-- `StoryInsights.get_insights`: catches any `FacebookRequestError`
with vendor error code 10 and substitutes the empty dict; other errors
are re-raised. -/
def story_get_insights (s : StoryItem) : Except RunError Rec :=
  match s.fetch storyInsightsMetrics with
  | .ok ins =>
    match insightsDict ins with
    | some d => .ok d
    | none => .error .indexErr
  | .fail err =>
    if err.api_error_code = some 10 then .ok []
    else .error (.fb err)

/-- The story loop of `StoryInsights.__iter__` for one account:
`if not insights: continue` skips stories whose insights dict is
empty. -/
def storyInsightsRun (pid baid : Val) : List StoryItem → Except RunError (List Rec)
  | [] => .ok []
  | s :: rest =>
    match story_get_insights s with
    | .error e => .error e
    | .ok ins =>
      if ins.isEmpty then storyInsightsRun pid baid rest
      else
        match storyInsightsRun pid baid rest with
        | .ok rs =>
          .ok ((upsert "business_account_id" baid
            (upsert "page_id" pid (upsert "id" s.id ins))) :: rs)
        | .error e => .error e

/-- A pre-business-conversion insights error (subcode 2108006). -/
def preConversionError : FBError :=
  { http_status := 400
    api_error_type := "FacebookApiException"
    api_error_code := some 100
    api_error_subcode := some 2108006
    api_transient_error := false
    api_error_message := "Media posted before business account conversion" }

/-- The story-insights error with the exact message the code compares
against. -/
def notEnoughViewersExactError : FBError :=
  { http_status := 400
    api_error_type := "FacebookApiException"
    api_error_code := some 10
    api_error_subcode := none
    api_transient_error := false
    api_error_message := "(#10) Not enough viewers for the media to show insights" }

/-- A story whose insights fetch fails with the exact
not-enough-viewers error. -/
def c7Story : StoryItem :=
  { id := Val.str "s1", fetch := fun _ => .fail notEnoughViewersExactError }

/-! ## URL parameter stripping (`common.py`, `remove_params_from_url`;
`streams.py`, `Stream.clean_url`) -/

/-- Python `s.split(sep)` for a one-character separator
(`"".split(sep) == [""]`). -/
def splitChar (sep : Char) : List Char → List (List Char)
  | [] => [[]]
  | c :: rest =>
    if c = sep then [] :: splitChar sep rest
    else
      match splitChar sep rest with
      | [] => [[c]]
      | g :: gs => (c :: g) :: gs

/-- Split at the first occurrence of a character: the part before it
and, when the character occurs, the part after it. -/
def breakAtChar (sep : Char) : List Char → List Char × Option (List Char)
  | [] => ([], none)
  | c :: rest =>
    if c = sep then ([], some rest)
    else
      let p := breakAtChar sep rest
      (c :: p.1, p.2)

/-- Scan up to (excluding) the first of the stop characters. -/
def spanUntil (stops : List Char) : List Char → List Char × List Char
  | [] => ([], [])
  | c :: rest =>
    if c ∈ stops then ([], c :: rest)
    else
      let p := spanUntil stops rest
      (c :: p.1, p.2)

/-- The components of `urllib.parse.urlparse` (the `params` component
is always empty for the URLs considered here, so it is omitted). -/
structure UrlParts where
  scheme : List Char
  netloc : List Char
  path : List Char
  query : List Char
  fragment : List Char
deriving DecidableEq, Repr

/-- Model of `urllib.parse.urlparse`, for URLs whose first `:` (when
present) terminates a well-formed scheme and which use no `;` path
parameters: the scheme is everything before the first `:`, the netloc
follows `//` up to the next `/`, `?` or `#`, the fragment follows the
first `#`, and the query follows the first `?` before the fragment. -/
def urlparseModel (url : List Char) : UrlParts :=
  let sp := breakAtChar ':' url
  let scheme := match sp.2 with | some _ => sp.1 | none => []
  let rest := match sp.2 with | some post => post | none => url
  let np :=
    if rest.take 2 = ['/', '/'] then spanUntil ['/', '?', '#'] (rest.drop 2)
    else ([], rest)
  let fp := breakAtChar '#' np.2
  let fragment := match fp.2 with | some post => post | none => []
  let qp := breakAtChar '?' fp.1
  let query := match qp.2 with | some post => post | none => []
  ⟨scheme, np.1, qp.1, query, fragment⟩

/-- Model of `urllib.parse.urlunparse` (with empty `params`): the query
is re-attached only when non-empty, so an empty query loses its `?`. -/
def urlunparseModel (p : UrlParts) : List Char :=
  let u1 :=
    if p.netloc ≠ [] ∨ p.path.take 2 = ['/', '/'] then
      ['/', '/'] ++ p.netloc ++
        (if p.path ≠ [] ∧ p.path.take 1 ≠ ['/'] then '/' :: p.path else p.path)
    else p.path
  let u2 := if p.scheme ≠ [] then p.scheme ++ ':' :: u1 else u1
  let u3 := if p.query ≠ [] then u2 ++ '?' :: p.query else u2
  if p.fragment ≠ [] then u3 ++ '#' :: p.fragment else u3

/-- An element of the `params` argument of `remove_params_from_url`.
The media_url call-site passes a list of strings; the
profile_picture_url call-site passes — through an extra pair of
brackets — a list containing one list of strings.  Python's `in`
compares the string key against each element, and a string never
equals a list. -/
inductive PParam where
  | str : List Char → PParam
  | strList : List (List Char) → PParam
deriving DecidableEq, Repr

/-- Python `sep.join(parts)` for a one-character separator. -/
def joinSep (sep : Char) : List (List Char) → List Char
  | [] => []
  | [x] => x
  | x :: y :: t => x ++ sep :: joinSep sep (y :: t)

/-- Apply `f` to each element, stopping at the first failure (a Python
loop whose body may raise). -/
def mapMOpt {α β : Type} (f : α → Option β) : List α → Option (List β)
  | [] => some []
  | a :: t =>
    match f a with
    | none => none
    | some b =>
      match mapMOpt f t with
      | none => none
      | some bs => some (b :: bs)

/-- `key, value = q.split("=")` for one `&`-component of the query:
`none` when the component does not split into exactly two parts
(Python raises a ValueError unpacking error). -/
def parsePair (q : List Char) : Option (List Char × List Char) :=
  match splitChar '=' q with
  | [k, v] => some (k, v)
  | _ => none

/-- `key, value = q.split("=")` applied to every `&`-component of the
query, first failure wins. -/
def queryPairs (query : List Char) : Option (List (List Char × List Char)) :=
  mapMOpt parsePair (splitChar '&' query)

/-- `remove_params_from_url` from `common.py`: parse the URL, split the
query on `&`, unpack each component as `key=value` (raising on
malformed components), drop the pairs whose key is in `params`, and
unparse with the re-joined query. -/
def remove_params_from_url (url : String) (params : List PParam) : Except Unit String :=
  let parsed := urlparseModel url.data
  match queryPairs parsed.query with
  | none => .error ()
  | some pairs =>
    let res_query := (pairs.filter (fun kv => !(params.contains (PParam.str kv.1)))).map
      (fun kv => kv.1 ++ '=' :: kv.2)
    .ok (String.mk (urlunparseModel { parsed with query := joinSep '&' res_query }))

/-- The blocked keys passed for `media_url`:
`params=["_nc_sid", "_nc_cat", "ccb"]`. -/
def mediaUrlParams : List PParam :=
  [.str "_nc_sid".data, .str "_nc_cat".data, .str "ccb".data]

/-- The argument actually passed for `profile_picture_url`:
`params=[["_nc_sid", "_nc_cat", "ccb"]]`, a list whose single element
is itself a list. -/
def profileUrlParams : List PParam :=
  [.strList ["_nc_sid".data, "_nc_cat".data, "ccb".data]]

/-- The `profile_picture_url` branch of `Stream.clean_url`. -/
def cleanProfile (record : List (String × String)) : Except Unit (List (String × String)) :=
  match lookupA "profile_picture_url" record with
  | some u =>
    if u ≠ "" then
      match remove_params_from_url u profileUrlParams with
      | .error e => .error e
      | .ok u' => .ok (upsert "profile_picture_url" u' record)
    else .ok record
  | none => .ok record

/-- `Stream.clean_url` from `streams.py`, modelled on the two URL
fields of a record (string-valued; `record.get(k)` is truthy when the
key is present with a non-empty value). -/
def clean_url (record : List (String × String)) : Except Unit (List (String × String)) :=
  match lookupA "media_url" record with
  | some u =>
    if u ≠ "" then
      match remove_params_from_url u mediaUrlParams with
      | .error e => .error e
      | .ok u' => cleanProfile (upsert "media_url" u' record)
    else cleanProfile record
  | none => cleanProfile record

end TapInstagram

namespace TapInstagram

/-- C1, counterexample: the claim says the classifier returns Retryable
exactly when the first matching rule of the spec table is a Retryable
rule.  On an error whose message merely contains "Not enough viewers"
(spec rule 4, ExpectedEmpty, matches first) but whose transient flag is
set, the code retries anyway, because it compares the message for exact
equality. -/
theorem c1_counterexample :
    should_retry_api_error notEnoughViewersTransientError = true ∧
    classifySpec notEnoughViewersTransientError = Classification.ExpectedEmpty ∧
    classifySpec notEnoughViewersTransientError ≠ Classification.Retryable := by
  decide

/-- C1, amended: with rule 4 read as the code's exact message equality,
`should_retry_api_error` returns true exactly when the in-order,
first-match-wins classification is Retryable; every error classified
ExpectedEmpty or Fatal is not retried. -/
theorem c1_classifier_retryable_iff (exc : FBError) :
    (should_retry_api_error exc = true ↔ classifyByCode exc = Classification.Retryable) ∧
    (classifyByCode exc ≠ Classification.Retryable → should_retry_api_error exc = false) := by
  constructor
  · unfold should_retry_api_error classifyByCode
    split_ifs <;> simp
  · intro h
    rcases hb : should_retry_api_error exc with _ | _
    · rfl
    · exfalso
      apply h
      revert hb
      unfold should_retry_api_error classifyByCode
      split_ifs <;> simp

/-- C2: with the stored bookmark 2023-01-10 (day 19367), buffer_days=30
and "now" 2023-02-01 12:00:00 UTC (day 19389, second-of-day 43200), the
claim says `build_range` returns the window (2023-01-10, 2023-01-31).
The code's `pendulum.today(-1)` is the start of the current day in the
fixed timezone UTC-01:00, so the computed upper bound (and hence the
terminal bookmark date) is 2023-02-01 (day 19389), not 2023-01-31
(day 19388). -/
theorem c2_upper_bound_is_today_not_yesterday :
    build_range (some (19367 * 86400)) 19389 43200 =
      (19367 * 86400, 19389 * 86400 + 3600) ∧
    utcMinus1DateOf 19389 43200 = 19389 ∧
    (19389 : Int) ≠ 19388 := by
  decide

/-- C3: for every stored bookmark and every "now", the window's lower
bound never exceeds its upper bound; and when the stored bookmark is
strictly earlier than `today - buffer_days`, the lower bound equals
`today - buffer_days` exactly. -/
theorem c3_build_range_window (bookmark : Option Int) (b day sec : Int)
    (h0 : 0 ≤ sec) (h1 : sec < 86400) :
    (build_range bookmark day sec).1 ≤ (build_range bookmark day sec).2 ∧
    (bookmark = some b → b < (day - buffer_days) * 86400 →
      (build_range bookmark day sec).1 = (day - buffer_days) * 86400) := by
  have hmin : (day - buffer_days) * 86400 ≤ pendulumTodayUtcMinus1 day sec := by
    unfold pendulumTodayUtcMinus1 buffer_days
    omega
  cases bookmark with
  | none => exact ⟨min_le_right _ _, by simp⟩
  | some bb =>
    refine ⟨min_le_right _ _, ?_⟩
    intro hb hlt
    injection hb with hb
    subst hb
    have hbr : build_range (some bb) day sec =
        (min ((day - buffer_days) * 86400) (pendulumTodayUtcMinus1 day sec),
          pendulumTodayUtcMinus1 day sec) := by
      simp [build_range, hlt]
    rw [hbr]
    exact min_eq_left hmin

/-- C3, witness: a clamped bookmark at a concrete date. -/
theorem c3_build_range_window_witness :
    (build_range (some 0) 19389 43200).1 ≤ (build_range (some 0) 19389 43200).2 ∧
    (some (0 : Int) = some 0 → (0 : Int) < (19389 - buffer_days) * 86400 →
      (build_range (some 0) 19389 43200).1 = (19389 - buffer_days) * 86400) :=
  c3_build_range_window (some 0) 0 19389 43200 (by decide) (by decide)

/-! ### Association list lemmas -/

theorem lookupA_upsert_self {β : Type} (k : String) (v : β) (l : List (String × β)) :
    lookupA k (upsert k v l) = some v := by
  induction l with
  | nil => simp [upsert, lookupA]
  | cons h t ih =>
    obtain ⟨k', v'⟩ := h
    by_cases hk : k' = k
    · simp [upsert, hk, lookupA]
    · simp [upsert, hk, lookupA, ih]

theorem lookupA_upsert_ne {β : Type} {k k' : String} (hne : k' ≠ k) (v : β)
    (l : List (String × β)) :
    lookupA k (upsert k' v l) = lookupA k l := by
  induction l with
  | nil => simp [upsert, lookupA, hne]
  | cons h t ih =>
    obtain ⟨k₀, v₀⟩ := h
    by_cases hk : k₀ = k'
    · subst hk
      simp [upsert, lookupA, hne]
    · simp [upsert, hk, lookupA, ih]

theorem mem_keys_upsert {β : Type} (a k : String) (v : β) (l : List (String × β)) :
    a ∈ (upsert k v l).map Prod.fst ↔ a = k ∨ a ∈ l.map Prod.fst := by
  induction l with
  | nil => simp [upsert]
  | cons h t ih =>
    obtain ⟨k₀, v₀⟩ := h
    by_cases hk : k₀ = k
    · subst hk
      simp [upsert]
    · simp [upsert, hk, ih]
      tauto

theorem nodup_keys_upsert {β : Type} (k : String) (v : β) (l : List (String × β))
    (h : (l.map Prod.fst).Nodup) :
    ((upsert k v l).map Prod.fst).Nodup := by
  induction l with
  | nil => simp [upsert]
  | cons hd t ih =>
    obtain ⟨k₀, v₀⟩ := hd
    simp only [List.map_cons, List.nodup_cons] at h
    by_cases hk : k₀ = k
    · subst hk
      simpa [upsert] using h
    · simp only [upsert, if_neg hk, List.map_cons, List.nodup_cons]
      refine ⟨?_, ih h.2⟩
      rw [mem_keys_upsert]
      rintro (rfl | hmem)
      · exact hk rfl
      · exact h.1 hmem

/-! ### `metrics_by_day` accumulation lemmas -/

theorem innerLookup_mdInsert (e k e' k' : String) (v' : Val) (md : List (String × Rec)) :
    innerLookup e k (mdInsert e' k' v' md) =
      if e' = e ∧ k' = k then some v' else innerLookup e k md := by
  unfold innerLookup mdInsert
  by_cases he : e' = e
  · subst he
    rw [lookupA_upsert_self]
    by_cases hk : k' = k
    · subst hk
      simp [lookupA_upsert_self]
    · simp [hk, lookupA_upsert_ne hk]
  · rw [lookupA_upsert_ne he]
    simp [he]

theorem mem_keys_mdInsert (a e k : String) (v : Val) (md : List (String × Rec)) :
    a ∈ (mdInsert e k v md).map Prod.fst ↔ a = e ∨ a ∈ md.map Prod.fst :=
  mem_keys_upsert a e _ md

theorem nodup_keys_mdInsert (e k : String) (v : Val) (md : List (String × Rec))
    (h : (md.map Prod.fst).Nodup) :
    ((mdInsert e k v md).map Prod.fst).Nodup :=
  nodup_keys_upsert e _ md h

theorem innerLookup_eventsFold (events : List (String × String × Val))
    (md : List (String × Rec)) (e k : String) :
    innerLookup e k (eventsFold events md) =
      events.foldl (fun acc ev => if ev.1 = e ∧ ev.2.1 = k then some ev.2.2 else acc)
        (innerLookup e k md) := by
  induction events generalizing md with
  | nil => rfl
  | cons ev evs ih =>
    show innerLookup e k (eventsFold evs (mdInsert ev.1 ev.2.1 ev.2.2 md)) = _
    rw [ih, innerLookup_mdInsert, List.foldl_cons]

theorem innerLookup_nil (e k : String) : innerLookup e k [] = none := rfl

theorem lastVal_eq_innerLookup_eventsFold (events : List (String × String × Val))
    (e k : String) :
    innerLookup e k (eventsFold events []) = lastVal e k events := by
  rw [innerLookup_eventsFold, innerLookup_nil, lastVal]

theorem mem_keys_eventsFold (events : List (String × String × Val))
    (md : List (String × Rec)) (a : String) :
    a ∈ (eventsFold events md).map Prod.fst ↔
      a ∈ events.map (fun ev => ev.1) ∨ a ∈ md.map Prod.fst := by
  induction events generalizing md with
  | nil => simp [eventsFold]
  | cons ev evs ih =>
    show a ∈ (eventsFold evs (mdInsert ev.1 ev.2.1 ev.2.2 md)).map Prod.fst ↔ _
    rw [ih, mem_keys_mdInsert, List.map_cons, List.mem_cons]
    tauto

theorem nodup_keys_eventsFold (events : List (String × String × Val))
    (md : List (String × Rec)) (h : (md.map Prod.fst).Nodup) :
    ((eventsFold events md).map Prod.fst).Nodup := by
  induction events generalizing md with
  | nil => exact h
  | cons ev evs ih =>
    exact ih _ (nodup_keys_mdInsert _ _ _ _ h)

theorem lastVal_foldl_no_match (e k : String) (events : List (String × String × Val))
    (acc : Option Val) (h : ∀ ev ∈ events, ¬(ev.1 = e ∧ ev.2.1 = k)) :
    events.foldl (fun acc ev => if ev.1 = e ∧ ev.2.1 = k then some ev.2.2 else acc) acc
      = acc := by
  induction events generalizing acc with
  | nil => rfl
  | cons ev evs ih =>
    rw [List.foldl_cons, if_neg (h ev (by simp))]
    exact ih acc fun x hx => h x (by simp [hx])

theorem lastVal_foldl_init_irrel (e k : String) (events : List (String × String × Val))
    (acc₁ acc₂ : Option Val) (h : ∃ ev ∈ events, ev.1 = e ∧ ev.2.1 = k) :
    events.foldl (fun acc ev => if ev.1 = e ∧ ev.2.1 = k then some ev.2.2 else acc) acc₁ =
      events.foldl (fun acc ev => if ev.1 = e ∧ ev.2.1 = k then some ev.2.2 else acc) acc₂ := by
  induction events generalizing acc₁ acc₂ with
  | nil => simp at h
  | cons ev evs ih =>
    by_cases hev : ev.1 = e ∧ ev.2.1 = k
    · simp only [List.foldl_cons, if_pos hev]
    · obtain ⟨x, hx, hxek⟩ := h
      rcases List.mem_cons.mp hx with rfl | hx'
      · exact absurd hxek hev
      · simp only [List.foldl_cons, if_neg hev]
        exact ih _ _ ⟨x, hx', hxek⟩

theorem lastVal_of_nodup (e k : String) (v : Val) (events : List (String × String × Val))
    (hnd : (events.map (fun ev => (ev.1, ev.2.1))).Nodup)
    (hmem : (e, k, v) ∈ events) :
    lastVal e k events = some v := by
  induction events with
  | nil => simp at hmem
  | cons ev evs ih =>
    simp only [List.map_cons, List.nodup_cons] at hnd
    rcases List.mem_cons.mp hmem with rfl | hmem'
    · show List.foldl _ (if (e, k, v).1 = e ∧ ((e, k, v).2.1 = k) then some (e, k, v).2.2
        else none) evs = some v
      rw [if_pos ⟨rfl, rfl⟩]
      apply lastVal_foldl_no_match
      intro x hx hxek
      apply hnd.1
      have : (x.1, x.2.1) = (e, k) := by
        rw [hxek.1, hxek.2]
      rw [← this]
      exact List.mem_map_of_mem _ hx
    · have hin : lastVal e k evs = some v := ih hnd.2 hmem'
      show List.foldl _ (if ev.1 = e ∧ ev.2.1 = k then some ev.2.2 else none) evs = some v
      by_cases hev : ev.1 = e ∧ ev.2.1 = k
      · rw [lastVal_foldl_init_irrel e k evs _ none ⟨(e, k, v), hmem', rfl, rfl⟩]
        exact hin
      · rw [if_neg hev]
        exact hin

/-! ### Reconciliation lemmas -/

theorem collectMetrics_eq_eventsFold (resp : String → List MetricResp) :
    collectMetrics resp = eventsFold (respEvents resp) [] := by
  unfold collectMetrics respEvents eventsFold
  simp only [List.foldl_flatten, List.foldl_map]

theorem dateStrOf_mkDayRecord (pid baid : Val) (e : String) (md : List (String × Rec)) :
    dateStrOf (mkDayRecord pid baid e md) = e := by
  unfold dateStrOf mkDayRecord
  rw [lookupA_upsert_self]

theorem lookupA_mkDayRecord_page (pid baid : Val) (e : String) (md : List (String × Rec)) :
    lookupA "page_id" (mkDayRecord pid baid e md) = some pid := by
  unfold mkDayRecord
  rw [lookupA_upsert_ne (by decide), lookupA_upsert_ne (by decide), lookupA_upsert_self]

theorem lookupA_mkDayRecord_baid (pid baid : Val) (e : String) (md : List (String × Rec)) :
    lookupA "business_account_id" (mkDayRecord pid baid e md) = some baid := by
  unfold mkDayRecord
  rw [lookupA_upsert_ne (by decide), lookupA_upsert_self]

theorem lookupA_mkDayRecord_metric (pid baid : Val) (e k : String) (md : List (String × Rec))
    (h1 : k ≠ "page_id") (h2 : k ≠ "business_account_id") (h3 : k ≠ "date") :
    lookupA k (mkDayRecord pid baid e md) = innerLookup e k md := by
  unfold mkDayRecord innerLookup
  rw [lookupA_upsert_ne (Ne.symm h3), lookupA_upsert_ne (Ne.symm h2),
    lookupA_upsert_ne (Ne.symm h1)]

theorem map_dateStrOf_accountRecords (pid baid : Val) (resp : String → List MetricResp) :
    (accountRecords pid baid resp).map dateStrOf = sortedDays (collectMetrics resp) := by
  unfold accountRecords
  rw [List.map_map]
  simp [Function.comp_def, dateStrOf_mkDayRecord]

/-- C4: for every account synced by the user-insights stream, the
multi-period reconciliation emits exactly one record per distinct
end_time (the emitted `date` fields are duplicate-free and exhaust the
collected end_times), in ascending end_time order; each record carries
the injected page_id and business_account_id, and carries every metric
value collected for its end_time, under the derived key that suffixes
week/28-day metric names with the period name. -/
theorem c4_multi_period_reconciliation (pid baid : Val) (resp : String → List MetricResp)
    (hnd : ((respEvents resp).map (fun ev => (ev.1, ev.2.1))).Nodup)
    (hres : ∀ ev ∈ respEvents resp,
      ev.2.1 ≠ "page_id" ∧ ev.2.1 ≠ "business_account_id" ∧ ev.2.1 ≠ "date") :
    ((accountRecords pid baid resp).map dateStrOf).Nodup ∧
    List.Sorted dateLe ((accountRecords pid baid resp).map dateStrOf) ∧
    (∀ e, e ∈ (accountRecords pid baid resp).map dateStrOf ↔
      e ∈ (respEvents resp).map (fun ev => ev.1)) ∧
    (∀ r ∈ accountRecords pid baid resp,
      lookupA "page_id" r = some pid ∧ lookupA "business_account_id" r = some baid) ∧
    (∀ ev ∈ respEvents resp, ∀ r ∈ accountRecords pid baid resp,
      dateStrOf r = ev.1 → lookupA ev.2.1 r = some ev.2.2) ∧
    (∀ name : String, metricKey "week" name = name ++ "_" ++ "week" ∧
      metricKey "days_28" name = name ++ "_" ++ "days_28" ∧
      metricKey "day" name = name ∧ metricKey "lifetime" name = name) := by
  have hmd := collectMetrics_eq_eventsFold resp
  have hmap := map_dateStrOf_accountRecords pid baid resp
  have hkeysnd : ((collectMetrics resp).map Prod.fst).Nodup := by
    rw [hmd]
    exact nodup_keys_eventsFold _ _ (by simp)
  refine ⟨?_, ?_, ?_, ?_, ?_, ?_⟩
  · rw [hmap]
    unfold sortedDays
    exact ((List.perm_insertionSort dateLe _).nodup_iff).mpr hkeysnd
  · rw [hmap]
    exact List.sorted_insertionSort dateLe _
  · intro e
    rw [hmap]
    unfold sortedDays
    rw [List.mem_insertionSort, hmd, mem_keys_eventsFold]
    simp
  · intro r hr
    obtain ⟨e, he, rfl⟩ := List.mem_map.mp hr
    exact ⟨lookupA_mkDayRecord_page pid baid e _, lookupA_mkDayRecord_baid pid baid e _⟩
  · intro ev hev r hr hdate
    obtain ⟨e, he, rfl⟩ := List.mem_map.mp hr
    rw [dateStrOf_mkDayRecord] at hdate
    obtain ⟨h1, h2, h3⟩ := hres ev hev
    rw [lookupA_mkDayRecord_metric pid baid e ev.2.1 _ h1 h2 h3, hdate, hmd,
      lastVal_eq_innerLookup_eventsFold]
    exact lastVal_of_nodup ev.1 ev.2.1 ev.2.2 _ hnd hev
  · intro name
    refine ⟨?_, ?_, ?_, ?_⟩ <;> simp [metricKey]

/-- C4, witness: a response where the day and week periods both return
a `reach` metric for the same end_time. -/
theorem c4_multi_period_reconciliation_witness :
    ((accountRecords (Val.str "p") (Val.str "b") c4resp).map dateStrOf).Nodup ∧
    List.Sorted dateLe ((accountRecords (Val.str "p") (Val.str "b") c4resp).map dateStrOf) ∧
    (∀ e, e ∈ (accountRecords (Val.str "p") (Val.str "b") c4resp).map dateStrOf ↔
      e ∈ (respEvents c4resp).map (fun ev => ev.1)) ∧
    (∀ r ∈ accountRecords (Val.str "p") (Val.str "b") c4resp,
      lookupA "page_id" r = some (Val.str "p") ∧
      lookupA "business_account_id" r = some (Val.str "b")) ∧
    (∀ ev ∈ respEvents c4resp, ∀ r ∈ accountRecords (Val.str "p") (Val.str "b") c4resp,
      dateStrOf r = ev.1 → lookupA ev.2.1 r = some ev.2.2) ∧
    (∀ name : String, metricKey "week" name = name ++ "_" ++ "week" ∧
      metricKey "days_28" name = name ++ "_" ++ "days_28" ∧
      metricKey "day" name = name ∧ metricKey "lifetime" name = name) :=
  c4_multi_period_reconciliation (Val.str "p") (Val.str "b") c4resp (by decide) (by decide)

/-- C5, counterexample: with two accounts, the second account's records
restart the date sequence, so the record messages of a run are not
globally in non-decreasing bookmark-key order. -/
theorem c5_counterexample :
    recordDates (userInsightsIter [c5AccountLate, c5AccountEarly] "2023-02-01 00:00:00") =
      ["2023-01-02T07:00:00+0000", "2023-01-01T07:00:00+0000"] ∧
    ¬ List.Sorted dateLe
        (recordDates (userInsightsIter [c5AccountLate, c5AccountEarly] "2023-02-01 00:00:00")) := by
  decide

/-- C5, amended: within one run of the incremental user-insights
stream, each individual account's records appear in non-decreasing
bookmark-key (end_time) order, and the single State message is the last
message of the run; ordering restarts at each account boundary. -/
theorem c5_state_last_and_per_account_order (accounts : List IGAccount) (untilStr : String) :
    (userInsightsIter accounts untilStr).getLast? = some (Msg.state untilStr) ∧
    (userInsightsIter accounts untilStr).countP isStateMsg = 1 ∧
    ∀ a ∈ accounts,
      List.Sorted dateLe
        ((accountRecords a.page_id a.business_account_id a.resp).map dateStrOf) := by
  refine ⟨?_, ?_, ?_⟩
  · unfold userInsightsIter
    simp
  · unfold userInsightsIter
    rw [List.countP_append]
    have h0 : ((accounts.map (fun a =>
        (accountRecords a.page_id a.business_account_id a.resp).map Msg.record)).flatten).countP
          isStateMsg = 0 := by
      refine List.countP_eq_zero.mpr ?_
      intro m hm
      simp only [List.mem_flatten, List.mem_map] at hm
      obtain ⟨l, ⟨a, _, rfl⟩, hml⟩ := hm
      obtain ⟨r, _, rfl⟩ := List.mem_map.mp hml
      simp [isStateMsg]
    rw [h0]
    simp [isStateMsg]
  · intro a _
    rw [map_dateStrOf_accountRecords]
    exact List.sorted_insertionSort dateLe _

/-- C5, witness: the two-account run from the counterexample satisfies
the per-account ordering and state-last guarantees. -/
theorem c5_state_last_witness :
    (userInsightsIter [c5AccountLate, c5AccountEarly] "u").getLast? = some (Msg.state "u") ∧
    (userInsightsIter [c5AccountLate, c5AccountEarly] "u").countP isStateMsg = 1 ∧
    ∀ a ∈ [c5AccountLate, c5AccountEarly],
      List.Sorted dateLe
        ((accountRecords a.page_id a.business_account_id a.resp).map dateStrOf) :=
  c5_state_last_and_per_account_order [c5AccountLate, c5AccountEarly] "u"

/-- C6: when the first (most recent) media item's insights fetch fails
with vendor error subcode 2108006 (pre-business-conversion media), the
media-insights loop for that account emits zero records, issues exactly
one insights query (the remaining item is never queried), and does not
fail. -/
theorem c6_pre_conversion_stops_enumeration (pid baid : Val) (err : FBError) (b : MediaItem)
    (hsub : err.api_error_subcode = some 2108006) :
    mediaInsightsRun pid baid
      [{ id := Val.str "A", media_type := "IMAGE", fetch := fun _ => .fail err }, b] =
      .ok ([], 1) := by
  simp [mediaInsightsRun, media_get_insights, hsub]

/-- C6, witness: a concrete pre-conversion error and a concrete second
item. -/
theorem c6_pre_conversion_witness :
    mediaInsightsRun (Val.str "p") (Val.str "b")
      [{ id := Val.str "A", media_type := "IMAGE", fetch := fun _ => .fail preConversionError },
        { id := Val.str "B", media_type := "VIDEO", fetch := fun _ => .ok [] }] =
      .ok ([], 1) :=
  c6_pre_conversion_stops_enumeration (Val.str "p") (Val.str "b") preConversionError
    { id := Val.str "B", media_type := "VIDEO", fetch := fun _ => .ok [] } (by decide)

/-- C7, counterexample: an error with vendor code 10 whose message
contains "Not enough viewers" (but is not the exact string the code
compares against) and whose transient flag is set is retried by the
code, contradicting the claim that every such error is classified
ExpectedEmpty and not retried. -/
theorem c7_counterexample :
    notEnoughViewersTransientError.api_error_code = some 10 ∧
    containsSub "Not enough viewers".data
      notEnoughViewersTransientError.api_error_message.data = true ∧
    should_retry_api_error notEnoughViewersTransientError = true := by
  decide

/-- C7, amended: for an error with vendor code 10 whose message is
exactly "(#10) Not enough viewers for the media to show insights" and
whose http status is not 429 (no earlier retryable rule applies), the
classifier does not retry and the classification is ExpectedEmpty; the
story-insights call-site catches the code-10 error, substitutes an
empty insights dict, and continues with the next item. -/
theorem c7_not_enough_viewers_expected_empty (exc : FBError) (pid baid : Val)
    (s : StoryItem) (rest : List StoryItem)
    (hcode : exc.api_error_code = some 10)
    (hmsg : exc.api_error_message = "(#10) Not enough viewers for the media to show insights")
    (hstatus : exc.http_status ≠ 429)
    (hfetch : s.fetch storyInsightsMetrics = .fail exc) :
    should_retry_api_error exc = false ∧
    classifyByCode exc = Classification.ExpectedEmpty ∧
    storyInsightsRun pid baid (s :: rest) = storyInsightsRun pid baid rest := by
  have h1 : ¬(exc.api_error_type = "OAuthException" ∧
      exc.api_error_code ∈ [some 1, some 2, some 4, some 17, some 341, some 368]) := by
    rw [hcode]
    rintro ⟨-, hmem⟩
    simp at hmem
  have h2 : exc.api_error_code ∉ [some (4 : Int), some 17, some 32, some 613] := by
    rw [hcode]
    simp
  refine ⟨?_, ?_, ?_⟩
  · unfold should_retry_api_error
    rw [if_neg h1, if_neg h2, if_neg hstatus, if_pos ⟨hcode, hmsg⟩]
  · unfold classifyByCode
    rw [if_neg h1, if_neg h2, if_neg hstatus, if_pos ⟨hcode, hmsg⟩]
  · simp [storyInsightsRun, story_get_insights, hfetch, hcode]

/-! ### String splitting and joining lemmas -/

theorem splitChar_ne_nil (sep : Char) (l : List Char) : splitChar sep l ≠ [] := by
  cases l with
  | nil => simp [splitChar]
  | cons c rest =>
    unfold splitChar
    by_cases h : c = sep
    · simp [h]
    · simp only [if_neg h]
      rcases splitChar sep rest with _ | ⟨g, gs⟩ <;> simp

theorem splitChar_not_mem (sep : Char) (l : List Char) :
    ∀ g ∈ splitChar sep l, sep ∉ g := by
  induction l with
  | nil =>
    intro g hg
    simp [splitChar] at hg
    subst hg
    simp
  | cons c rest ih =>
    intro g hg
    unfold splitChar at hg
    by_cases h : c = sep
    · rw [if_pos h] at hg
      rcases List.mem_cons.mp hg with rfl | hg'
      · simp
      · exact ih g hg'
    · rw [if_neg h] at hg
      rcases hs : splitChar sep rest with _ | ⟨g0, gs⟩
      · exact absurd hs (splitChar_ne_nil sep rest)
      · rw [hs] at hg
        rcases List.mem_cons.mp hg with rfl | hg'
        · intro hmem
          rcases List.mem_cons.mp hmem with heq | hmem'
          · exact h heq.symm
          · exact ih g0 (by rw [hs]; simp) hmem'
        · exact ih g (by rw [hs]; simp [hg'])

theorem joinSep_cons_head (sep c : Char) (g : List Char) (gs : List (List Char)) :
    joinSep sep ((c :: g) :: gs) = c :: joinSep sep (g :: gs) := by
  cases gs <;> rfl

theorem joinSep_splitChar (sep : Char) (l : List Char) :
    joinSep sep (splitChar sep l) = l := by
  induction l with
  | nil => rfl
  | cons c rest ih =>
    unfold splitChar
    by_cases h : c = sep
    · rw [if_pos h]
      rcases hs : splitChar sep rest with _ | ⟨g0, gs⟩
      · exact absurd hs (splitChar_ne_nil sep rest)
      · rw [hs] at ih
        show sep :: joinSep sep (g0 :: gs) = c :: rest
        rw [ih, h]
    · rw [if_neg h]
      rcases hs : splitChar sep rest with _ | ⟨g0, gs⟩
      · exact absurd hs (splitChar_ne_nil sep rest)
      · rw [hs] at ih
        show joinSep sep ((c :: g0) :: gs) = c :: rest
        rw [joinSep_cons_head, ih]

theorem splitChar_no_sep (sep : Char) (l : List Char) (h : sep ∉ l) :
    splitChar sep l = [l] := by
  induction l with
  | nil => rfl
  | cons c rest ih =>
    simp only [List.mem_cons, not_or] at h
    unfold splitChar
    rw [if_neg (fun hc => h.1 hc.symm), ih h.2]

theorem splitChar_append_sep (sep : Char) (p t : List Char) (h : sep ∉ p) :
    splitChar sep (p ++ sep :: t) = p :: splitChar sep t := by
  induction p with
  | nil => simp [splitChar]
  | cons c p' ih =>
    simp only [List.mem_cons, not_or] at h
    rw [List.cons_append]
    conv_lhs => unfold splitChar
    rw [if_neg (fun hc => h.1 hc.symm), ih h.2]

theorem splitChar_joinSep (sep : Char) (parts : List (List Char)) (hne : parts ≠ [])
    (h : ∀ p ∈ parts, sep ∉ p) :
    splitChar sep (joinSep sep parts) = parts := by
  induction parts with
  | nil => exact absurd rfl hne
  | cons x ps ih =>
    cases ps with
    | nil => exact splitChar_no_sep sep x (h x (by simp))
    | cons y t =>
      show splitChar sep (x ++ sep :: joinSep sep (y :: t)) = x :: y :: t
      rw [splitChar_append_sep sep x _ (h x (by simp)),
        ih (by simp) (fun p hp => h p (by simp [hp]))]

theorem splitChar_length (sep : Char) (l : List Char) :
    (splitChar sep l).length = l.count sep + 1 := by
  induction l with
  | nil => simp [splitChar]
  | cons c rest ih =>
    unfold splitChar
    by_cases h : c = sep
    · rw [if_pos h]
      simp only [List.length_cons, ih, List.count_cons]
      simp [h]
    · rw [if_neg h]
      rcases hs : splitChar sep rest with _ | ⟨g0, gs⟩
      · exact absurd hs (splitChar_ne_nil sep rest)
      · rw [hs] at ih
        simp only [List.length_cons] at ih
        simp only [List.length_cons, List.count_cons]
        have hb : (c == sep) = false := by
          simpa using h
        rw [hb]
        simp
        omega

/-! ### `mapMOpt` lemmas -/

theorem mapMOpt_none_of_mem {α β : Type} (f : α → Option β) {l : List α} {a : α}
    (ha : a ∈ l) (hf : f a = none) : mapMOpt f l = none := by
  induction l with
  | nil => simp at ha
  | cons b t ih =>
    unfold mapMOpt
    rcases List.mem_cons.mp ha with rfl | ha'
    · rw [hf]
    · rcases hfb : f b with _ | y
      · rfl
      · rw [ih ha']

theorem mapMOpt_some_mem {α β : Type} (f : α → Option β) {l : List α} {out : List β}
    (h : mapMOpt f l = some out) : ∀ b ∈ out, ∃ a ∈ l, f a = some b := by
  induction l generalizing out with
  | nil =>
    simp only [mapMOpt, Option.some_inj] at h
    subst h
    simp
  | cons x t ih =>
    unfold mapMOpt at h
    rcases hfx : f x with _ | y
    · rw [hfx] at h
      simp at h
    · rw [hfx] at h
      rcases hmt : mapMOpt f t with _ | ys
      · rw [hmt] at h
        simp at h
      · rw [hmt] at h
        simp only [Option.some_inj] at h
        subst h
        intro b hb
        rcases List.mem_cons.mp hb with rfl | hb'
        · exact ⟨x, by simp, hfx⟩
        · obtain ⟨a, ha, hfa⟩ := ih hmt b hb'
          exact ⟨a, by simp [ha], hfa⟩

theorem mapMOpt_map_some {α β : Type} (f : β → Option α) (g : α → β) {l : List α}
    (h : ∀ a ∈ l, f (g a) = some a) : mapMOpt f (l.map g) = some l := by
  induction l with
  | nil => rfl
  | cons x t ih =>
    rw [List.map_cons]
    unfold mapMOpt
    rw [h x (by simp), ih (fun a ha => h a (by simp [ha]))]

/-- C7, witness: the exact not-enough-viewers error on a concrete
story. -/
theorem c7_not_enough_viewers_witness :
    should_retry_api_error notEnoughViewersExactError = false ∧
    classifyByCode notEnoughViewersExactError = Classification.ExpectedEmpty ∧
    storyInsightsRun (Val.str "p") (Val.str "b") [c7Story] =
      storyInsightsRun (Val.str "p") (Val.str "b") [] :=
  c7_not_enough_viewers_expected_empty notEnoughViewersExactError (Val.str "p") (Val.str "b")
    c7Story [] (by decide) (by decide) (by decide) rfl

/-! ### `parsePair` / `queryPairs` lemmas -/

theorem parsePair_of_splitChar {q k v : List Char} (h : splitChar '=' q = [k, v]) :
    parsePair q = some (k, v) := by
  unfold parsePair
  rw [h]

theorem splitChar_of_parsePair {q : List Char} {kv : List Char × List Char}
    (h : parsePair q = some kv) : splitChar '=' q = [kv.1, kv.2] := by
  unfold parsePair at h
  rcases hs : splitChar '=' q with _ | ⟨k, _ | ⟨v, _ | ⟨w, t⟩⟩⟩ <;> rw [hs] at h <;>
    simp at h
  rw [← h]

theorem parsePair_none_of_count {q : List Char} (h : q.count '=' ≠ 1) :
    parsePair q = none := by
  have hlen : (splitChar '=' q).length ≠ 2 := by
    rw [splitChar_length]
    omega
  unfold parsePair
  rcases hs : splitChar '=' q with _ | ⟨k, _ | ⟨v, _ | ⟨w, t⟩⟩⟩
  · rfl
  · rfl
  · rw [hs] at hlen
    simp at hlen
  · rfl

theorem queryPairs_facts {query : List Char} {pairs : List (List Char × List Char)}
    (h : queryPairs query = some pairs) :
    ∀ kv ∈ pairs, '=' ∉ kv.1 ∧ '=' ∉ kv.2 ∧ '&' ∉ kv.1 ∧ '&' ∉ kv.2 := by
  intro kv hkv
  obtain ⟨q, hqmem, hfq⟩ := mapMOpt_some_mem parsePair h kv hkv
  have hsplit := splitChar_of_parsePair hfq
  have hq_eq : q = kv.1 ++ '=' :: kv.2 := by
    have hj := joinSep_splitChar '=' q
    rw [hsplit] at hj
    rw [← hj]
    rfl
  have hne1 : '=' ∉ kv.1 :=
    splitChar_not_mem '=' q kv.1 (by rw [hsplit]; simp)
  have hne2 : '=' ∉ kv.2 :=
    splitChar_not_mem '=' q kv.2 (by rw [hsplit]; simp)
  have hamp : '&' ∉ q := splitChar_not_mem '&' query q hqmem
  refine ⟨hne1, hne2, ?_, ?_⟩
  · intro hm
    exact hamp (by rw [hq_eq]; simp [hm])
  · intro hm
    exact hamp (by rw [hq_eq]; simp [hm])

theorem queryPairs_rebuild {kept : List (List Char × List Char)} (hne : kept ≠ [])
    (hfacts : ∀ kv ∈ kept, '=' ∉ kv.1 ∧ '=' ∉ kv.2 ∧ '&' ∉ kv.1 ∧ '&' ∉ kv.2) :
    queryPairs (joinSep '&' (kept.map (fun kv => kv.1 ++ '=' :: kv.2))) = some kept := by
  have hno : ∀ p ∈ kept.map (fun kv => kv.1 ++ '=' :: kv.2), '&' ∉ p := by
    intro p hp
    obtain ⟨kv, hkv, rfl⟩ := List.mem_map.mp hp
    obtain ⟨-, -, h1, h2⟩ := hfacts kv hkv
    simp only [List.mem_append, List.mem_cons, not_or]
    exact ⟨h1, by decide, h2⟩
  unfold queryPairs
  rw [splitChar_joinSep '&' _ (by simpa using hne) hno]
  apply mapMOpt_map_some
  intro kv hkv
  obtain ⟨h1, h2, -, -⟩ := hfacts kv hkv
  apply parsePair_of_splitChar
  rw [splitChar_append_sep '=' kv.1 kv.2 h1, splitChar_no_sep '=' kv.2 h2]

/-- C8, amended: for every URL whose query parses as `&`-separated
`key=value` components, `remove_params_from_url` removes exactly the
pairs whose key is in the blocked set, preserving the other pairs and
their order, and rebuilds the URL from the parse with only the query
component replaced (scheme, netloc and path unchanged); when all pairs
are removed the empty query is rendered without a `?`. -/
theorem c8_strip_params (url : String) (params : List PParam)
    (pairs : List (List Char × List Char))
    (hq : queryPairs (urlparseModel url.data).query = some pairs) :
    remove_params_from_url url params =
      .ok (String.mk (urlunparseModel
        { urlparseModel url.data with
          query := joinSep '&'
            ((pairs.filter (fun kv => !(params.contains (PParam.str kv.1)))).map
              (fun kv => kv.1 ++ '=' :: kv.2)) })) ∧
    (pairs.filter (fun kv => !(params.contains (PParam.str kv.1))) ≠ [] →
      queryPairs (joinSep '&'
          ((pairs.filter (fun kv => !(params.contains (PParam.str kv.1)))).map
            (fun kv => kv.1 ++ '=' :: kv.2))) =
        some (pairs.filter (fun kv => !(params.contains (PParam.str kv.1))))) := by
  constructor
  · simp only [remove_params_from_url]
    rw [hq]
  · intro hne
    refine queryPairs_rebuild hne ?_
    intro kv hkv
    exact queryPairs_facts hq kv (List.mem_of_mem_filter hkv)

/-- C8, counterexample: stripping every key does not leave an empty
query with a retained `?`: the `?` is dropped, because `urlunparse`
re-attaches the query only when it is non-empty. -/
theorem c8_counterexample :
    remove_params_from_url "https://x/y?a=1" [PParam.str "a".data] =
      Except.ok "https://x/y" ∧
    ("https://x/y" : String) ≠ "https://x/y?" := by
  decide

/-- C8, witness: the spec's concrete examples, via the amended
theorem. -/
theorem c8_strip_params_witness :
    remove_params_from_url "https://x/y?a=1&_nc_sid=2&b=3" [PParam.str "_nc_sid".data] =
      Except.ok "https://x/y?a=1&b=3" ∧
    remove_params_from_url "https://x/y?a=1&b=3" [PParam.str "zzz".data] =
      Except.ok "https://x/y?a=1&b=3" := by
  have h1 := c8_strip_params "https://x/y?a=1&_nc_sid=2&b=3" [PParam.str "_nc_sid".data]
    [("a".data, "1".data), ("_nc_sid".data, "2".data), ("b".data, "3".data)] (by decide)
  have h2 := c8_strip_params "https://x/y?a=1&b=3" [PParam.str "zzz".data]
    [("a".data, "1".data), ("b".data, "3".data)] (by decide)
  constructor
  · rw [h1.1]
    decide
  · rw [h2.1]
    decide

/-- C9: URL cleanup is effective only for `media_url`.  On a record
whose two URL fields carry the same `_nc_sid` parameter, `clean_url`
strips it from `media_url` but leaves `profile_picture_url` unchanged,
because the profile branch passes `[["_nc_sid", "_nc_cat", "ccb"]]` (a
list containing a list) and a string key never equals a list. -/
theorem c9_profile_picture_url_not_stripped :
    clean_url [("media_url", "https://x/y?a=1&_nc_sid=2"),
        ("profile_picture_url", "https://x/y?a=1&_nc_sid=2")] =
      Except.ok [("media_url", "https://x/y?a=1"),
        ("profile_picture_url", "https://x/y?a=1&_nc_sid=2")] := by
  decide

/-- Any URL whose query is empty or has an `&`-component without
exactly one `=` makes `remove_params_from_url` raise (the `key, value`
unpacking fails). -/
theorem remove_params_error_of_bad_query (url : String) (params : List PParam)
    (h : (urlparseModel url.data).query = [] ∨
      ∃ q ∈ splitChar '&' (urlparseModel url.data).query, q.count '=' ≠ 1) :
    remove_params_from_url url params = Except.error () := by
  have hnone : queryPairs (urlparseModel url.data).query = none := by
    rcases h with h | ⟨q, hqmem, hqcount⟩
    · rw [h]
      decide
    · exact mapMOpt_none_of_mem parsePair hqmem (parsePair_none_of_count hqcount)
  simp only [remove_params_from_url]
  rw [hnone]

/-- C10: `remove_params_from_url` is not total: every URL whose query
is empty or has a component without exactly one `=` raises an
unpacking error instead of returning a URL, and a record whose
`media_url` has no query parameters makes `clean_url` (and hence the
emitting stream) fail. -/
theorem c10_strip_not_total :
    (∀ (url : String) (params : List PParam),
      ((urlparseModel url.data).query = [] ∨
        ∃ q ∈ splitChar '&' (urlparseModel url.data).query, q.count '=' ≠ 1) →
      remove_params_from_url url params = Except.error ()) ∧
    (∀ (record : List (String × String)) (u : String),
      lookupA "media_url" record = some u → u ≠ "" →
      (urlparseModel u.data).query = [] →
      clean_url record = Except.error ()) := by
  refine ⟨fun url params h => remove_params_error_of_bad_query url params h, ?_⟩
  intro record u hlook hne hq
  simp only [clean_url, hlook]
  rw [if_pos hne, remove_params_error_of_bad_query u mediaUrlParams (Or.inl hq)]

/-- C10, witness: a URL with no query at all. -/
theorem c10_strip_not_total_witness :
    remove_params_from_url "https://x/y" [] = Except.error () ∧
    clean_url [("media_url", "https://x/y")] = Except.error () :=
  ⟨c10_strip_not_total.1 "https://x/y" [] (Or.inl (by decide)),
    c10_strip_not_total.2 [("media_url", "https://x/y")] "https://x/y" (by decide) (by decide)
      (by decide)⟩

end TapInstagram
